import Mathlib

/-!
# alpaca-go client factories

A shallow embedding of the three client wrappers of the repository
(`pkg/trading/client.go`, `pkg/marketdata/client.go`, `pkg/broker/client.go`)
and the properties of their constructors.

Modelling conventions.

* A Go `string` is an immutable sequence of bytes, so it is embedded as
  `List UInt8` (`GoString`); `str` turns a source literal into its bytes and
  `[]byte(s)` is the identity.
* A Go `Option` is a closure `func(*options)` that mutates the configuration in
  place; it is embedded as a state-passing function `options → options`.
  Every function of that type is admitted, which covers the closures built by
  `WithHTTPClient` and `WithBaseURL`. A nil function value is not a function
  and lies outside the embedding.
* A variadic parameter `opts ...Option` is a `List`, `for _, opt := range opts`
  is a left fold, `append(opts, x)` is `opts ++ [x]`.
* The generated service clients and the Go standard library are not part of
  the wrapped sources; they are modelled next to their first use.
-/

/-- A Go string value: its bytes, in order. -/
abbrev GoString := List UInt8

/-- The bytes of a source-code string literal (Go source is UTF-8). -/
def str (s : String) : GoString := s.toUTF8.data.toList

/-! ## Standard library -/

namespace http

/-- Modelled from the spec: the transport handle `*http.Client` of `net/http`,
which is outside the wrapped sources. It is a pointer: nil, or the address of
a client value. -/
inductive Client where
  | nil : Client
  | ptr (addr : Nat) : Client
  deriving DecidableEq

/-- Modelled from the spec: `http.DefaultClient`, the platform default HTTP
client, a fixed non-nil pointer. -/
def DefaultClient : Client := Client.ptr 0

end http

namespace base64

/-- Modelled from the spec: the alphabet of `base64.StdEncoding`
(RFC 4648 section 4), from `encoding/base64`, outside the wrapped sources. -/
def encodeStd : GoString :=
  str "ABCDEFGHIJKLMNOPQRSTUVWXYZabcdefghijklmnopqrstuvwxyz0123456789+/"

/-- Modelled from the spec: `StdPadding`, the padding character `=` of
`base64.StdEncoding`. -/
def StdPadding : UInt8 := 61

/-- The table lookup `enc.encode[i]`. -/
def encode (i : Nat) : UInt8 := encodeStd.getD i 0

/-- Modelled from the spec: `(*Encoding).Encode` of `encoding/base64` for
`StdEncoding`, the standard padded base64 of RFC 4648. Full groups of three
source bytes become four characters; a final group of one or two bytes is
zero-extended and padded with `=`. -/
def Encode : List UInt8 → List UInt8
  | [] => []
  | [b0] =>
    let val := b0.toNat <<< 16
    [encode ((val >>> 18) &&& 0x3F), encode ((val >>> 12) &&& 0x3F), StdPadding, StdPadding]
  | [b0, b1] =>
    let val := b0.toNat <<< 16 ||| b1.toNat <<< 8
    [encode ((val >>> 18) &&& 0x3F), encode ((val >>> 12) &&& 0x3F),
     encode ((val >>> 6) &&& 0x3F), StdPadding]
  | b0 :: b1 :: b2 :: rest =>
    let val := b0.toNat <<< 16 ||| b1.toNat <<< 8 ||| b2.toNat
    encode ((val >>> 18) &&& 0x3F) :: encode ((val >>> 12) &&& 0x3F) ::
      encode ((val >>> 6) &&& 0x3F) :: encode (val &&& 0x3F) :: Encode rest

/-- Modelled from the spec: `base64.StdEncoding.EncodeToString`. -/
def EncodeToString (src : List UInt8) : GoString := Encode src

end base64

/-! ## Generated service clients -/

namespace tradingv1

/-- Modelled from the spec: the client options of the generated trading
package (`internal/gen/alpaca/trading/v1`, outside the wrapped sources), kept
as the constructor that was called and its argument. -/
inductive TradingServiceClientOption where
  | WithTradingServiceHTTPClient (c : http.Client)
  | WithTradingServiceAPCAAPIKEYID (v : GoString)
  | WithTradingServiceAPCAAPISECRETKEY (v : GoString)
  deriving DecidableEq

export TradingServiceClientOption (WithTradingServiceHTTPClient
  WithTradingServiceAPCAAPIKEYID WithTradingServiceAPCAAPISECRETKEY)

/-- Modelled from the spec: the generated trading client, an opaque handle
bound to the base URL and options it was constructed with. -/
structure TradingServiceClient where
  baseURL : GoString
  opts : List TradingServiceClientOption
  deriving DecidableEq

/-- Modelled from the spec: the generated constructor
`NewTradingServiceClient(baseURL, opts...)`; it records its arguments. -/
def NewTradingServiceClient (baseURL : GoString)
    (opts : List TradingServiceClientOption) : TradingServiceClient :=
  { baseURL := baseURL, opts := opts }

end tradingv1

namespace marketdatav2

/-- Modelled from the spec: the client options of the generated market data
package (`internal/gen/alpaca/marketdata/v2`, outside the wrapped sources),
kept as the constructor that was called and its argument. -/
inductive MarketDataServiceClientOption where
  | WithMarketDataServiceHTTPClient (c : http.Client)
  | WithMarketDataServiceAPCAAPIKEYID (v : GoString)
  | WithMarketDataServiceAPCAAPISECRETKEY (v : GoString)
  deriving DecidableEq

export MarketDataServiceClientOption (WithMarketDataServiceHTTPClient
  WithMarketDataServiceAPCAAPIKEYID WithMarketDataServiceAPCAAPISECRETKEY)

/-- Modelled from the spec: the generated market data client, an opaque
handle bound to the base URL and options it was constructed with. -/
structure MarketDataServiceClient where
  baseURL : GoString
  opts : List MarketDataServiceClientOption
  deriving DecidableEq

/-- Modelled from the spec: the generated constructor
`NewMarketDataServiceClient(baseURL, opts...)`; it records its arguments. -/
def NewMarketDataServiceClient (baseURL : GoString)
    (opts : List MarketDataServiceClientOption) : MarketDataServiceClient :=
  { baseURL := baseURL, opts := opts }

end marketdatav2

namespace brokerv1

/-- Modelled from the spec: the client options of the generated broker
package (`internal/gen/alpaca/broker/v1`, outside the wrapped sources), kept as
the constructor that was called and its argument. -/
inductive BrokerServiceClientOption where
  | WithBrokerServiceHTTPClient (c : http.Client)
  | WithBrokerServiceAuthorization (v : GoString)
  deriving DecidableEq

export BrokerServiceClientOption (WithBrokerServiceHTTPClient WithBrokerServiceAuthorization)

/-- Modelled from the spec: the generated broker client, an opaque handle
bound to the base URL and options it was constructed with. -/
structure BrokerServiceClient where
  baseURL : GoString
  opts : List BrokerServiceClientOption
  deriving DecidableEq

/-- Modelled from the spec: the generated constructor
`NewBrokerServiceClient(baseURL, opts...)`; it records its arguments. -/
def NewBrokerServiceClient (baseURL : GoString)
    (opts : List BrokerServiceClientOption) : BrokerServiceClient :=
  { baseURL := baseURL, opts := opts }

end brokerv1

/-! ## pkg/trading/client.go -/

namespace trading

def LiveBaseURL : GoString := str "https://api.alpaca.markets"

def PaperBaseURL : GoString := str "https://paper-api.alpaca.markets"

/-- Client wraps the generated TradingService client. -/
structure Client where
  TradingServiceClient : tradingv1.TradingServiceClient
  deriving DecidableEq

structure options where
  httpClient : http.Client
  baseURL : GoString
  deriving DecidableEq

/-- Option configures a Client. -/
abbrev Option := options → options

/-- WithHTTPClient sets a custom HTTP client. -/
def WithHTTPClient (c : http.Client) : Option :=
  fun o => { o with httpClient := c }

/-- WithBaseURL sets a custom base URL (defaults to LiveBaseURL). -/
def WithBaseURL (url : GoString) : Option :=
  fun o => { o with baseURL := url }

/-- NewClient creates a new Trading API client. -/
def NewClient (apiKey apiSecret : GoString) (opts : List Option) : Client :=
  let cfg : options := { httpClient := http.DefaultClient, baseURL := LiveBaseURL }
  let cfg := opts.foldl (fun cfg opt => opt cfg) cfg
  let client := tradingv1.NewTradingServiceClient cfg.baseURL
    [tradingv1.WithTradingServiceHTTPClient cfg.httpClient,
     tradingv1.WithTradingServiceAPCAAPIKEYID apiKey,
     tradingv1.WithTradingServiceAPCAAPISECRETKEY apiSecret]
  { TradingServiceClient := client }

/-- NewPaperClient creates a client for paper trading. -/
def NewPaperClient (apiKey apiSecret : GoString) (opts : List Option) : Client :=
  NewClient apiKey apiSecret (opts ++ [WithBaseURL PaperBaseURL])

end trading

/-! ## pkg/marketdata/client.go -/

namespace marketdata

def BaseURL : GoString := str "https://data.alpaca.markets"

/-- Client wraps the generated MarketDataService client. -/
structure Client where
  MarketDataServiceClient : marketdatav2.MarketDataServiceClient
  deriving DecidableEq

structure options where
  httpClient : http.Client
  baseURL : GoString
  deriving DecidableEq

/-- Option configures a Client. -/
abbrev Option := options → options

/-- WithHTTPClient sets a custom HTTP client. -/
def WithHTTPClient (c : http.Client) : Option :=
  fun o => { o with httpClient := c }

/-- WithBaseURL sets a custom base URL (defaults to BaseURL). -/
def WithBaseURL (url : GoString) : Option :=
  fun o => { o with baseURL := url }

/-- NewClient creates a new Market Data API client. -/
def NewClient (apiKey apiSecret : GoString) (opts : List Option) : Client :=
  let cfg : options := { httpClient := http.DefaultClient, baseURL := BaseURL }
  let cfg := opts.foldl (fun cfg opt => opt cfg) cfg
  let client := marketdatav2.NewMarketDataServiceClient cfg.baseURL
    [marketdatav2.WithMarketDataServiceHTTPClient cfg.httpClient,
     marketdatav2.WithMarketDataServiceAPCAAPIKEYID apiKey,
     marketdatav2.WithMarketDataServiceAPCAAPISECRETKEY apiSecret]
  { MarketDataServiceClient := client }

end marketdata

/-! ## pkg/broker/client.go -/

namespace broker

def LiveBaseURL : GoString := str "https://broker-api.alpaca.markets"

def SandboxBaseURL : GoString := str "https://broker-api.sandbox.alpaca.markets"

/-- Client wraps the generated BrokerService client. -/
structure Client where
  BrokerServiceClient : brokerv1.BrokerServiceClient
  deriving DecidableEq

structure options where
  httpClient : http.Client
  baseURL : GoString
  deriving DecidableEq

/-- Option configures a Client. -/
abbrev Option := options → options

/-- WithHTTPClient sets a custom HTTP client. -/
def WithHTTPClient (c : http.Client) : Option :=
  fun o => { o with httpClient := c }

/-- WithBaseURL sets a custom base URL (defaults to LiveBaseURL). -/
def WithBaseURL (url : GoString) : Option :=
  fun o => { o with baseURL := url }

/-- NewClient creates a new Broker API client (HTTP Basic Auth). -/
def NewClient (apiKey apiSecret : GoString) (opts : List Option) : Client :=
  let cfg : options := { httpClient := http.DefaultClient, baseURL := LiveBaseURL }
  let cfg := opts.foldl (fun cfg opt => opt cfg) cfg
  let auth := base64.EncodeToString (apiKey ++ str ":" ++ apiSecret)
  let client := brokerv1.NewBrokerServiceClient cfg.baseURL
    [brokerv1.WithBrokerServiceHTTPClient cfg.httpClient,
     brokerv1.WithBrokerServiceAuthorization (str "Basic " ++ auth)]
  { BrokerServiceClient := client }

/-- NewSandboxClient creates a client for the broker sandbox environment. -/
def NewSandboxClient (apiKey apiSecret : GoString) (opts : List Option) : Client :=
  NewClient apiKey apiSecret (opts ++ [WithBaseURL SandboxBaseURL])

end broker

/-! ## Option lists as the caller writes them -/

/-- One option value of a call, named by the constructor that builds it. The
three packages export the same two constructors. -/
inductive OptionCall where
  | WithHTTPClient (c : http.Client)
  | WithBaseURL (url : GoString)
  deriving DecidableEq

namespace OptionCall

/-- The argument of a `WithBaseURL` call. -/
def baseURLArg : OptionCall → Option GoString
  | WithBaseURL url => some url
  | WithHTTPClient _ => none

/-- The argument of a `WithHTTPClient` call. -/
def httpClientArg : OptionCall → Option http.Client
  | WithHTTPClient c => some c
  | WithBaseURL _ => none

/-- The argument of the last `WithBaseURL` in the list, if there is one. -/
def lastBaseURL (calls : List OptionCall) : Option GoString :=
  (calls.filterMap baseURLArg).getLast?

/-- The argument of the last `WithHTTPClient` in the list, if there is one. -/
def lastHTTPClient (calls : List OptionCall) : Option http.Client :=
  (calls.filterMap httpClientArg).getLast?

/-- The option value of package trading that the call builds. -/
def trading : OptionCall → trading.Option
  | WithHTTPClient c => trading.WithHTTPClient c
  | WithBaseURL url => trading.WithBaseURL url

/-- The option value of package marketdata that the call builds. -/
def marketdata : OptionCall → marketdata.Option
  | WithHTTPClient c => marketdata.WithHTTPClient c
  | WithBaseURL url => marketdata.WithBaseURL url

/-- The option value of package broker that the call builds. -/
def broker : OptionCall → broker.Option
  | WithHTTPClient c => broker.WithHTTPClient c
  | WithBaseURL url => broker.WithBaseURL url

end OptionCall

/-! ## The environment variants as the specification words them -/

namespace Spec

/-- The paper-trading variant in the words of the specification: identical to
`Construct` (`trading.NewClient` on the caller's options) except that the base
URL is forced to the paper endpoint. -/
def ConstructPaper (apiKey apiSecret : GoString) (opts : List trading.Option) :
    trading.Client :=
  { TradingServiceClient :=
      { (trading.NewClient apiKey apiSecret opts).TradingServiceClient with
        baseURL := str "https://paper-api.alpaca.markets" } }

/-- The broker sandbox variant in the words of the specification: identical to
`Construct` (`broker.NewClient` on the caller's options) except that the base
URL is forced to the sandbox endpoint. -/
def ConstructSandbox (apiKey apiSecret : GoString) (opts : List broker.Option) :
    broker.Client :=
  { BrokerServiceClient :=
      { (broker.NewClient apiKey apiSecret opts).BrokerServiceClient with
        baseURL := str "https://broker-api.sandbox.alpaca.markets" } }

end Spec

/-! ## The base64 model on the RFC 4648 test vectors -/

/-- The model of `EncodeToString` reproduces the test vectors of RFC 4648
section 10. -/
theorem base64.EncodeToString_rfc4648_vectors :
    base64.EncodeToString (str "") = str "" ∧
    base64.EncodeToString (str "f") = str "Zg==" ∧
    base64.EncodeToString (str "fo") = str "Zm8=" ∧
    base64.EncodeToString (str "foo") = str "Zm9v" ∧
    base64.EncodeToString (str "foob") = str "Zm9vYg==" ∧
    base64.EncodeToString (str "fooba") = str "Zm9vYmE=" ∧
    base64.EncodeToString (str "foobar") = str "Zm9vYmFy" := by
  decide

/-! ## The base64 model is injective -/

/-- The separator literal `":"` is the single byte 58. -/
theorem str_colon : str ":" = [58] := by decide

/-- No character of the alphabet is the padding character. -/
theorem base64.encode_ne_padding_fin :
    ∀ i : Fin 64, base64.encode i ≠ base64.StdPadding := by
  decide

set_option maxRecDepth 100000 in
/-- The alphabet has 64 distinct characters. -/
theorem base64.encode_inj_fin :
    ∀ i j : Fin 64, base64.encode i = base64.encode j → i = j := by
  decide

/-- The table lookup is injective on the indices below 64. -/
theorem base64.encode_inj {i j : Nat} (hi : i < 64) (hj : j < 64)
    (h : base64.encode i = base64.encode j) : i = j :=
  congrArg Fin.val (base64.encode_inj_fin ⟨i, hi⟩ ⟨j, hj⟩ h)

/-- An index below 64 never yields the padding character. -/
theorem base64.encode_ne_padding {i : Nat} (hi : i < 64) :
    base64.encode i ≠ base64.StdPadding :=
  base64.encode_ne_padding_fin ⟨i, hi⟩

/-- The padding character is not in the alphabet. -/
theorem base64.padding_ne_encode {i : Nat} (hi : i < 64) :
    base64.StdPadding ≠ base64.encode i :=
  fun h => base64.encode_ne_padding hi h.symm

/-- Or-ing a value below `2 ^ i` into a value shifted left by `i` adds it. -/
theorem base64.shiftLeft_lor_of_lt (a b i : Nat) (hb : b < 2 ^ i) :
    a <<< i ||| b = a * 2 ^ i + b := by
  rw [Nat.shiftLeft_eq, Nat.mul_comm, ← Nat.mul_add_lt_is_or hb]

/-- The 24-bit group of three bytes, as arithmetic. -/
theorem base64.val3 (a b c : Nat) (hb : b < 256) (hc : c < 256) :
    (a <<< 16 ||| b <<< 8 ||| c) = a * 65536 + b * 256 + c := by
  rw [Nat.lor_assoc, base64.shiftLeft_lor_of_lt b c 8 (by omega),
    base64.shiftLeft_lor_of_lt a _ 16 (by omega)]
  omega

/-- The zero-extended group of two bytes, as arithmetic. -/
theorem base64.val2 (a b : Nat) (hb : b < 256) :
    (a <<< 16 ||| b <<< 8) = a * 65536 + b * 256 := by
  rw [base64.shiftLeft_lor_of_lt a _ 16 (by rw [Nat.shiftLeft_eq]; omega), Nat.shiftLeft_eq b]
  omega

/-- A shifted and masked index is a base-64 digit of the group. -/
theorem base64.sextet (v n : Nat) : (v >>> n) &&& 0x3F = v / 2 ^ n % 64 := by
  rw [Nat.shiftRight_eq_div_pow]
  exact Nat.and_pow_two_sub_one_eq_mod _ 6

/-- The masked index is the lowest base-64 digit of the group. -/
theorem base64.sextet0 (v : Nat) : v &&& 0x3F = v % 64 :=
  Nat.and_pow_two_sub_one_eq_mod _ 6

/-- Equal characters come from equal base-64 digits. -/
theorem base64.encode_sextet_inj {v w m n : Nat}
    (h : base64.encode ((v >>> m) &&& 0x3F) = base64.encode ((w >>> n) &&& 0x3F)) :
    v / 2 ^ m % 64 = w / 2 ^ n % 64 := by
  rw [base64.sextet, base64.sextet] at h
  exact base64.encode_inj (Nat.mod_lt _ (by decide)) (Nat.mod_lt _ (by decide)) h

/-- Equal last characters come from equal lowest digits. -/
theorem base64.encode_sextet0_inj {v w : Nat}
    (h : base64.encode (v &&& 0x3F) = base64.encode (w &&& 0x3F)) :
    v % 64 = w % 64 := by
  rw [base64.sextet0, base64.sextet0] at h
  exact base64.encode_inj (Nat.mod_lt _ (by decide)) (Nat.mod_lt _ (by decide)) h

/-- A character encoding a digit is never the padding character. -/
theorem base64.encode_sextet_ne_padding (v n : Nat) :
    base64.encode ((v >>> n) &&& 0x3F) ≠ base64.StdPadding := by
  rw [base64.sextet]
  exact base64.encode_ne_padding (Nat.mod_lt _ (by decide))

/-- A character encoding the lowest digit is never the padding character. -/
theorem base64.encode_sextet0_ne_padding (v : Nat) :
    base64.encode (v &&& 0x3F) ≠ base64.StdPadding := by
  rw [base64.sextet0]
  exact base64.encode_ne_padding (Nat.mod_lt _ (by decide))

/-- The model of `Encode` is injective: the encoded text determines the source
bytes. -/
theorem base64.Encode_injective : ∀ a b : List UInt8, base64.Encode a = base64.Encode b → a = b
  | [], [], _ => rfl
  | [], [_], h => by simp [base64.Encode] at h
  | [], [_, _], h => by simp [base64.Encode] at h
  | [], _ :: _ :: _ :: _, h => by simp [base64.Encode] at h
  | [_], [], h => by simp [base64.Encode] at h
  | [_, _], [], h => by simp [base64.Encode] at h
  | _ :: _ :: _ :: _, [], h => by simp [base64.Encode] at h
  | [a0], [b0], h => by
    simp only [base64.Encode, List.cons.injEq] at h
    obtain ⟨e0, e1, -⟩ := h
    have h0 := base64.encode_sextet_inj e0
    have h1 := base64.encode_sextet_inj e1
    have ha := a0.toNat_lt
    have hb := b0.toNat_lt
    simp only [Nat.shiftLeft_eq] at h0 h1
    have : a0.toNat = b0.toNat := by norm_num at *; omega
    rw [UInt8.ext this]
  | [a0], [b0, b1], h => by
    simp only [base64.Encode, List.cons.injEq] at h
    obtain ⟨-, -, e2, -⟩ := h
    exact absurd e2.symm (base64.encode_sextet_ne_padding _ _)
  | [a0], b0 :: b1 :: b2 :: rest, h => by
    simp only [base64.Encode, List.cons.injEq] at h
    obtain ⟨-, -, e2, -⟩ := h
    exact absurd e2.symm (base64.encode_sextet_ne_padding _ _)
  | [a0, a1], [b0], h => by
    simp only [base64.Encode, List.cons.injEq] at h
    obtain ⟨-, -, e2, -⟩ := h
    exact absurd e2 (base64.encode_sextet_ne_padding _ _)
  | a0 :: a1 :: a2 :: rest, [b0], h => by
    simp only [base64.Encode, List.cons.injEq] at h
    obtain ⟨-, -, e2, -⟩ := h
    exact absurd e2 (base64.encode_sextet_ne_padding _ _)
  | [a0, a1], [b0, b1], h => by
    simp only [base64.Encode, List.cons.injEq] at h
    obtain ⟨e0, e1, e2, -⟩ := h
    have h0 := base64.encode_sextet_inj e0
    have h1 := base64.encode_sextet_inj e1
    have h2 := base64.encode_sextet_inj e2
    have ha0 := a0.toNat_lt
    have hb0 := b0.toNat_lt
    have ha1 := a1.toNat_lt
    have hb1 := b1.toNat_lt
    rw [base64.val2 _ _ (by omega), base64.val2 _ _ (by omega)] at h0 h1 h2
    have : a0.toNat = b0.toNat ∧ a1.toNat = b1.toNat := by norm_num at *; omega
    rw [UInt8.ext this.1, UInt8.ext this.2]
  | [a0, a1], b0 :: b1 :: b2 :: rest, h => by
    simp only [base64.Encode, List.cons.injEq] at h
    obtain ⟨-, -, -, e3, -⟩ := h
    exact absurd e3.symm (base64.encode_sextet0_ne_padding _)
  | a0 :: a1 :: a2 :: rest, [b0, b1], h => by
    simp only [base64.Encode, List.cons.injEq] at h
    obtain ⟨-, -, -, e3, -⟩ := h
    exact absurd e3 (base64.encode_sextet0_ne_padding _)
  | a0 :: a1 :: a2 :: ra, b0 :: b1 :: b2 :: rb, h => by
    simp only [base64.Encode, List.cons.injEq] at h
    obtain ⟨e0, e1, e2, e3, er⟩ := h
    have h0 := base64.encode_sextet_inj e0
    have h1 := base64.encode_sextet_inj e1
    have h2 := base64.encode_sextet_inj e2
    have h3 := base64.encode_sextet0_inj e3
    have ih := base64.Encode_injective ra rb er
    have ha0 := a0.toNat_lt
    have hb0 := b0.toNat_lt
    have ha1 := a1.toNat_lt
    have hb1 := b1.toNat_lt
    have ha2 := a2.toNat_lt
    have hb2 := b2.toNat_lt
    rw [base64.val3 _ _ _ (by omega) (by omega), base64.val3 _ _ _ (by omega) (by omega)]
      at h0 h1 h2 h3
    have : a0.toNat = b0.toNat ∧ a1.toNat = b1.toNat ∧ a2.toNat = b2.toNat := by
      norm_num at *; omega
    rw [UInt8.ext this.1, UInt8.ext this.2.1, UInt8.ext this.2.2, ih]

/-! ## Folding option lists -/

/-- The last element of `a :: t`, with any default, is the last element of `t`
with default `a`. -/
theorem List.getLast?_cons_getD {α : Type} (a : α) (t : List α) (x : α) :
    ((a :: t).getLast?).getD x = (t.getLast?).getD a := by
  induction t generalizing a x with
  | nil => rfl
  | cons b t ih => rw [List.getLast?_cons_cons, ih b x, ih b a]

/-- Applying a trading option list built from the two constructors leaves each
field at the argument of its last setter, or untouched. -/
theorem trading_foldl_calls (calls : List OptionCall) (cfg : trading.options) :
    (calls.map OptionCall.trading).foldl (fun cfg opt => opt cfg) cfg =
      { httpClient := (OptionCall.lastHTTPClient calls).getD cfg.httpClient,
        baseURL := (OptionCall.lastBaseURL calls).getD cfg.baseURL } := by
  induction calls generalizing cfg with
  | nil => rfl
  | cons a l ih =>
    rw [List.map_cons, List.foldl_cons, ih]
    cases a <;>
      simp [OptionCall.lastHTTPClient, OptionCall.lastBaseURL, OptionCall.httpClientArg,
        OptionCall.baseURLArg, OptionCall.trading, trading.WithHTTPClient, trading.WithBaseURL,
        List.getLast?_cons_getD]

/-- Applying a market data option list built from the two constructors leaves
each field at the argument of its last setter, or untouched. -/
theorem marketdata_foldl_calls (calls : List OptionCall) (cfg : marketdata.options) :
    (calls.map OptionCall.marketdata).foldl (fun cfg opt => opt cfg) cfg =
      { httpClient := (OptionCall.lastHTTPClient calls).getD cfg.httpClient,
        baseURL := (OptionCall.lastBaseURL calls).getD cfg.baseURL } := by
  induction calls generalizing cfg with
  | nil => rfl
  | cons a l ih =>
    rw [List.map_cons, List.foldl_cons, ih]
    cases a <;>
      simp [OptionCall.lastHTTPClient, OptionCall.lastBaseURL, OptionCall.httpClientArg,
        OptionCall.baseURLArg, OptionCall.marketdata, marketdata.WithHTTPClient,
        marketdata.WithBaseURL, List.getLast?_cons_getD]

/-- Applying a broker option list built from the two constructors leaves each
field at the argument of its last setter, or untouched. -/
theorem broker_foldl_calls (calls : List OptionCall) (cfg : broker.options) :
    (calls.map OptionCall.broker).foldl (fun cfg opt => opt cfg) cfg =
      { httpClient := (OptionCall.lastHTTPClient calls).getD cfg.httpClient,
        baseURL := (OptionCall.lastBaseURL calls).getD cfg.baseURL } := by
  induction calls generalizing cfg with
  | nil => rfl
  | cons a l ih =>
    rw [List.map_cons, List.foldl_cons, ih]
    cases a <;>
      simp [OptionCall.lastHTTPClient, OptionCall.lastBaseURL, OptionCall.httpClientArg,
        OptionCall.baseURLArg, OptionCall.broker, broker.WithHTTPClient, broker.WithBaseURL,
        List.getLast?_cons_getD]

/-- A run of trading `WithBaseURL` options does not touch the transport. -/
theorem trading_foldl_WithBaseURL_httpClient (us : List GoString) (cfg : trading.options) :
    ((us.map trading.WithBaseURL).foldl (fun cfg opt => opt cfg) cfg).httpClient =
      cfg.httpClient := by
  induction us generalizing cfg with
  | nil => rfl
  | cons u us ih => rw [List.map_cons, List.foldl_cons, ih]; rfl

/-- A run of market data `WithBaseURL` options does not touch the transport. -/
theorem marketdata_foldl_WithBaseURL_httpClient (us : List GoString)
    (cfg : marketdata.options) :
    ((us.map marketdata.WithBaseURL).foldl (fun cfg opt => opt cfg) cfg).httpClient =
      cfg.httpClient := by
  induction us generalizing cfg with
  | nil => rfl
  | cons u us ih => rw [List.map_cons, List.foldl_cons, ih]; rfl

/-- A run of broker `WithBaseURL` options does not touch the transport. -/
theorem broker_foldl_WithBaseURL_httpClient (us : List GoString) (cfg : broker.options) :
    ((us.map broker.WithBaseURL).foldl (fun cfg opt => opt cfg) cfg).httpClient =
      cfg.httpClient := by
  induction us generalizing cfg with
  | nil => rfl
  | cons u us ih => rw [List.map_cons, List.foldl_cons, ih]; rfl

/-- Dropping a `WithHTTPClient` call from a list does not change its last
`WithBaseURL` argument. -/
theorem OptionCall.lastBaseURL_insert_WithHTTPClient (l1 l2 : List OptionCall)
    (c : http.Client) :
    OptionCall.lastBaseURL (l1 ++ OptionCall.WithHTTPClient c :: l2) =
      OptionCall.lastBaseURL (l1 ++ l2) := by
  simp [OptionCall.lastBaseURL, OptionCall.baseURLArg, List.filterMap_append]

/-- Dropping a `WithBaseURL` call from a list does not change its last
`WithHTTPClient` argument. -/
theorem OptionCall.lastHTTPClient_insert_WithBaseURL (l1 l2 : List OptionCall)
    (u : GoString) :
    OptionCall.lastHTTPClient (l1 ++ OptionCall.WithBaseURL u :: l2) =
      OptionCall.lastHTTPClient (l1 ++ l2) := by
  simp [OptionCall.lastHTTPClient, OptionCall.httpClientArg, List.filterMap_append]

/-! ## Authentication -/

/-- Claim C1. For every credential pair and every option list,
`broker.NewClient` hands the generated broker client exactly one Authorization
value, equal to `"Basic "` followed by the standard padded base64 encoding of
the bytes of `apiKey + ":" + apiSecret`. -/
theorem broker_NewClient_authorization (apiKey apiSecret : GoString)
    (opts : List broker.Option) :
    ∃ c, (broker.NewClient apiKey apiSecret opts).BrokerServiceClient.opts =
      [brokerv1.WithBrokerServiceHTTPClient c,
       brokerv1.WithBrokerServiceAuthorization
         (str "Basic " ++ base64.EncodeToString (apiKey ++ str ":" ++ apiSecret))] :=
  ⟨_, rfl⟩

/-- Claim C2. For every credential pair and every option list,
`trading.NewClient` and `marketdata.NewClient` hand the generated client the
key-id value `apiKey` and the secret-key value `apiSecret`, each exactly as
given and not swapped. -/
theorem key_header_NewClient_raw_credentials (apiKey apiSecret : GoString) :
    (∀ opts : List trading.Option,
      ∃ c, (trading.NewClient apiKey apiSecret opts).TradingServiceClient.opts =
        [tradingv1.WithTradingServiceHTTPClient c,
         tradingv1.WithTradingServiceAPCAAPIKEYID apiKey,
         tradingv1.WithTradingServiceAPCAAPISECRETKEY apiSecret]) ∧
    (∀ opts : List marketdata.Option,
      ∃ c, (marketdata.NewClient apiKey apiSecret opts).MarketDataServiceClient.opts =
        [marketdatav2.WithMarketDataServiceHTTPClient c,
         marketdatav2.WithMarketDataServiceAPCAAPIKEYID apiKey,
         marketdatav2.WithMarketDataServiceAPCAAPISECRETKEY apiSecret]) :=
  ⟨fun _ => ⟨_, rfl⟩, fun _ => ⟨_, rfl⟩⟩

/-! ## Base URL -/

/-- Claim C3. For both environment-variant constructors, every credential pair
and every caller-supplied option list (whatever `WithBaseURL` options it
holds), the base URL handed to the generated client is the environment
endpoint: the paper endpoint for `trading.NewPaperClient`, the sandbox endpoint
for `broker.NewSandboxClient`. -/
theorem environment_variant_baseURL (apiKey apiSecret : GoString) :
    (∀ opts : List trading.Option,
      (trading.NewPaperClient apiKey apiSecret opts).TradingServiceClient.baseURL =
        str "https://paper-api.alpaca.markets") ∧
    (∀ opts : List broker.Option,
      (broker.NewSandboxClient apiKey apiSecret opts).BrokerServiceClient.baseURL =
        str "https://broker-api.sandbox.alpaca.markets") := by
  constructor
  · intro opts
    simp [trading.NewPaperClient, trading.NewClient, trading.WithBaseURL, trading.PaperBaseURL,
      tradingv1.NewTradingServiceClient, List.foldl_append]
  · intro opts
    simp [broker.NewSandboxClient, broker.NewClient, broker.WithBaseURL, broker.SandboxBaseURL,
      brokerv1.NewBrokerServiceClient, List.foldl_append]

/-- Claim C4. With an empty option list and any credential pair, `NewClient`
hands the generated client the default endpoint of its factory: the live
trading endpoint, the market data endpoint, the live broker endpoint. -/
theorem NewClient_default_baseURL (apiKey apiSecret : GoString) :
    (trading.NewClient apiKey apiSecret []).TradingServiceClient.baseURL =
      str "https://api.alpaca.markets" ∧
    (marketdata.NewClient apiKey apiSecret []).MarketDataServiceClient.baseURL =
      str "https://data.alpaca.markets" ∧
    (broker.NewClient apiKey apiSecret []).BrokerServiceClient.baseURL =
      str "https://broker-api.alpaca.markets" :=
  ⟨rfl, rfl, rfl⟩

/-- Claim C5. In each of the three factories, `NewClient` called with the
options `[WithBaseURL u1, WithBaseURL u2]` hands the generated client the base
URL `u2`, for all URL strings `u1`, `u2` and any credential pair. -/
theorem NewClient_two_baseURLs_last_wins (apiKey apiSecret u1 u2 : GoString) :
    (trading.NewClient apiKey apiSecret
      [trading.WithBaseURL u1, trading.WithBaseURL u2]).TradingServiceClient.baseURL = u2 ∧
    (marketdata.NewClient apiKey apiSecret
      [marketdata.WithBaseURL u1, marketdata.WithBaseURL u2]).MarketDataServiceClient.baseURL
        = u2 ∧
    (broker.NewClient apiKey apiSecret
      [broker.WithBaseURL u1, broker.WithBaseURL u2]).BrokerServiceClient.baseURL = u2 :=
  ⟨rfl, rfl, rfl⟩

/-- Claim C6. The worked example: `broker.NewClient("AKFAKE123", "secretXYZ")`
with no options hands the generated client the live broker endpoint as base URL
and the Authorization value `Basic QUtGQUtFMTIzOnNlY3JldFhZWg==`. -/
theorem broker_NewClient_example :
    (broker.NewClient (str "AKFAKE123") (str "secretXYZ") []).BrokerServiceClient.baseURL =
      str "https://broker-api.alpaca.markets" ∧
    (broker.NewClient (str "AKFAKE123") (str "secretXYZ") []).BrokerServiceClient.opts =
      [brokerv1.WithBrokerServiceHTTPClient http.DefaultClient,
       brokerv1.WithBrokerServiceAuthorization (str "Basic QUtGQUtFMTIzOnNlY3JldFhZWg==")] := by
  decide

/-! ## Environment variants against the plain constructor -/

/-- Claim C7. For every credential pair and every option list, the environment
variant is the plain constructor with only the base URL replaced:
`trading.NewPaperClient` is `trading.NewClient` on the caller's options with
`WithBaseURL` of the paper endpoint appended last, it is the specification's
variant `Spec.ConstructPaper`, and it hands the generated client the same
transport and the same key and secret values as `trading.NewClient` on the
caller's options; likewise `broker.NewSandboxClient` with the sandbox endpoint,
`Spec.ConstructSandbox`, the transport and the Authorization value. -/
theorem environment_variant_refines_NewClient (apiKey apiSecret : GoString) :
    (∀ opts : List trading.Option,
      trading.NewPaperClient apiKey apiSecret opts =
        trading.NewClient apiKey apiSecret
          (opts ++ [trading.WithBaseURL (str "https://paper-api.alpaca.markets")]) ∧
      trading.NewPaperClient apiKey apiSecret opts = Spec.ConstructPaper apiKey apiSecret opts ∧
      (trading.NewPaperClient apiKey apiSecret opts).TradingServiceClient.opts =
        (trading.NewClient apiKey apiSecret opts).TradingServiceClient.opts) ∧
    (∀ opts : List broker.Option,
      broker.NewSandboxClient apiKey apiSecret opts =
        broker.NewClient apiKey apiSecret
          (opts ++ [broker.WithBaseURL (str "https://broker-api.sandbox.alpaca.markets")]) ∧
      broker.NewSandboxClient apiKey apiSecret opts =
        Spec.ConstructSandbox apiKey apiSecret opts ∧
      (broker.NewSandboxClient apiKey apiSecret opts).BrokerServiceClient.opts =
        (broker.NewClient apiKey apiSecret opts).BrokerServiceClient.opts) := by
  constructor
  · intro opts
    refine ⟨rfl, ?_, ?_⟩ <;>
      simp [Spec.ConstructPaper, trading.NewPaperClient, trading.NewClient, trading.WithBaseURL,
        trading.PaperBaseURL, tradingv1.NewTradingServiceClient, List.foldl_append]
  · intro opts
    refine ⟨rfl, ?_, ?_⟩ <;>
      simp [Spec.ConstructSandbox, broker.NewSandboxClient, broker.NewClient, broker.WithBaseURL,
        broker.SandboxBaseURL, brokerv1.NewBrokerServiceClient, List.foldl_append]

/-! ## Construction is total and validates nothing -/

/-- Claim C8. Construction always returns a client and validates nothing. For
every key and secret (the empty string included), every option list, and every
URL given through a final `WithBaseURL` (empty or malformed included):
`NewClient` of each factory returns a client bound to that URL as given and to
the credential as given (raw key and secret for trading and market data, the
Basic value of the pair for broker); the environment variants return a client
bound to their endpoint and the same credential; and `broker.NewClient("", "")`
yields the Authorization value `Basic Og==`. -/
theorem construction_total_without_validation (apiKey apiSecret : GoString) :
    (∀ (opts : List trading.Option) (url : GoString),
      ∃ c, trading.NewClient apiKey apiSecret (opts ++ [trading.WithBaseURL url]) =
        { TradingServiceClient := tradingv1.NewTradingServiceClient url
            [tradingv1.WithTradingServiceHTTPClient c,
             tradingv1.WithTradingServiceAPCAAPIKEYID apiKey,
             tradingv1.WithTradingServiceAPCAAPISECRETKEY apiSecret] }) ∧
    (∀ (opts : List marketdata.Option) (url : GoString),
      ∃ c, marketdata.NewClient apiKey apiSecret (opts ++ [marketdata.WithBaseURL url]) =
        { MarketDataServiceClient := marketdatav2.NewMarketDataServiceClient url
            [marketdatav2.WithMarketDataServiceHTTPClient c,
             marketdatav2.WithMarketDataServiceAPCAAPIKEYID apiKey,
             marketdatav2.WithMarketDataServiceAPCAAPISECRETKEY apiSecret] }) ∧
    (∀ (opts : List broker.Option) (url : GoString),
      ∃ c, broker.NewClient apiKey apiSecret (opts ++ [broker.WithBaseURL url]) =
        { BrokerServiceClient := brokerv1.NewBrokerServiceClient url
            [brokerv1.WithBrokerServiceHTTPClient c,
             brokerv1.WithBrokerServiceAuthorization
               (str "Basic " ++ base64.EncodeToString (apiKey ++ str ":" ++ apiSecret))] }) ∧
    (∀ opts : List trading.Option,
      ∃ c, trading.NewPaperClient apiKey apiSecret opts =
        { TradingServiceClient := tradingv1.NewTradingServiceClient
            (str "https://paper-api.alpaca.markets")
            [tradingv1.WithTradingServiceHTTPClient c,
             tradingv1.WithTradingServiceAPCAAPIKEYID apiKey,
             tradingv1.WithTradingServiceAPCAAPISECRETKEY apiSecret] }) ∧
    (∀ opts : List broker.Option,
      ∃ c, broker.NewSandboxClient apiKey apiSecret opts =
        { BrokerServiceClient := brokerv1.NewBrokerServiceClient
            (str "https://broker-api.sandbox.alpaca.markets")
            [brokerv1.WithBrokerServiceHTTPClient c,
             brokerv1.WithBrokerServiceAuthorization
               (str "Basic " ++ base64.EncodeToString (apiKey ++ str ":" ++ apiSecret))] }) ∧
    (broker.NewClient (str "") (str "") []).BrokerServiceClient.opts =
      [brokerv1.WithBrokerServiceHTTPClient http.DefaultClient,
       brokerv1.WithBrokerServiceAuthorization (str "Basic Og==")] := by
  refine ⟨fun opts url => ?_, fun opts url => ?_, fun opts url => ?_,
    fun opts => ?_, fun opts => ?_, by decide⟩
  · exact ⟨(opts.foldl (fun (cfg : trading.options) (opt : trading.Option) => opt cfg)
        ({ httpClient := http.DefaultClient, baseURL := trading.LiveBaseURL } : trading.options)).httpClient,
      by simp [trading.NewClient, trading.WithBaseURL, List.foldl_append]⟩
  · exact ⟨(opts.foldl (fun (cfg : marketdata.options) (opt : marketdata.Option) => opt cfg)
        ({ httpClient := http.DefaultClient, baseURL := marketdata.BaseURL } : marketdata.options)).httpClient,
      by simp [marketdata.NewClient, marketdata.WithBaseURL, List.foldl_append]⟩
  · exact ⟨(opts.foldl (fun (cfg : broker.options) (opt : broker.Option) => opt cfg)
        ({ httpClient := http.DefaultClient, baseURL := broker.LiveBaseURL } : broker.options)).httpClient,
      by simp [broker.NewClient, broker.WithBaseURL, List.foldl_append]⟩
  · exact ⟨(opts.foldl (fun (cfg : trading.options) (opt : trading.Option) => opt cfg)
        ({ httpClient := http.DefaultClient, baseURL := trading.LiveBaseURL } : trading.options)).httpClient,
      by simp [trading.NewPaperClient, trading.NewClient, trading.WithBaseURL,
        trading.PaperBaseURL, List.foldl_append]⟩
  · exact ⟨(opts.foldl (fun (cfg : broker.options) (opt : broker.Option) => opt cfg)
        ({ httpClient := http.DefaultClient, baseURL := broker.LiveBaseURL } : broker.options)).httpClient,
      by simp [broker.NewSandboxClient, broker.NewClient, broker.WithBaseURL,
        broker.SandboxBaseURL, List.foldl_append]⟩

/-! ## Transport -/

/-- Claim C9. In each factory the transport handed to the generated client is
`http.DefaultClient` when the option list holds no `WithHTTPClient` (only
`WithBaseURL` options, possibly none), and is exactly `c` when
`WithHTTPClient c` is the only transport option, for every handle `c`, the nil
handle included; `WithHTTPClient` does not change the base URL and
`WithBaseURL` does not change the transport, on the configuration and on the
resolved client alike. -/
theorem transport_default_and_frame (apiKey apiSecret : GoString) :
    ((∀ us : List GoString,
        (trading.NewClient apiKey apiSecret
          (us.map trading.WithBaseURL)).TradingServiceClient.opts =
          [tradingv1.WithTradingServiceHTTPClient http.DefaultClient,
           tradingv1.WithTradingServiceAPCAAPIKEYID apiKey,
           tradingv1.WithTradingServiceAPCAAPISECRETKEY apiSecret]) ∧
      (∀ (us1 us2 : List GoString) (c : http.Client),
        (trading.NewClient apiKey apiSecret
          (us1.map trading.WithBaseURL ++ trading.WithHTTPClient c ::
            us2.map trading.WithBaseURL)).TradingServiceClient.opts =
          [tradingv1.WithTradingServiceHTTPClient c,
           tradingv1.WithTradingServiceAPCAAPIKEYID apiKey,
           tradingv1.WithTradingServiceAPCAAPISECRETKEY apiSecret]) ∧
      (∀ (cfg : trading.options) (c : http.Client) (u : GoString),
        (trading.WithHTTPClient c cfg).baseURL = cfg.baseURL ∧
        (trading.WithBaseURL u cfg).httpClient = cfg.httpClient) ∧
      (∀ (l1 l2 : List OptionCall) (c : http.Client),
        (trading.NewClient apiKey apiSecret ((l1 ++ OptionCall.WithHTTPClient c :: l2).map
          OptionCall.trading)).TradingServiceClient.baseURL =
        (trading.NewClient apiKey apiSecret ((l1 ++ l2).map
          OptionCall.trading)).TradingServiceClient.baseURL) ∧
      (∀ (l1 l2 : List OptionCall) (u : GoString),
        (trading.NewClient apiKey apiSecret ((l1 ++ OptionCall.WithBaseURL u :: l2).map
          OptionCall.trading)).TradingServiceClient.opts =
        (trading.NewClient apiKey apiSecret ((l1 ++ l2).map
          OptionCall.trading)).TradingServiceClient.opts)) ∧
    ((∀ us : List GoString,
        (marketdata.NewClient apiKey apiSecret
          (us.map marketdata.WithBaseURL)).MarketDataServiceClient.opts =
          [marketdatav2.WithMarketDataServiceHTTPClient http.DefaultClient,
           marketdatav2.WithMarketDataServiceAPCAAPIKEYID apiKey,
           marketdatav2.WithMarketDataServiceAPCAAPISECRETKEY apiSecret]) ∧
      (∀ (us1 us2 : List GoString) (c : http.Client),
        (marketdata.NewClient apiKey apiSecret
          (us1.map marketdata.WithBaseURL ++ marketdata.WithHTTPClient c ::
            us2.map marketdata.WithBaseURL)).MarketDataServiceClient.opts =
          [marketdatav2.WithMarketDataServiceHTTPClient c,
           marketdatav2.WithMarketDataServiceAPCAAPIKEYID apiKey,
           marketdatav2.WithMarketDataServiceAPCAAPISECRETKEY apiSecret]) ∧
      (∀ (cfg : marketdata.options) (c : http.Client) (u : GoString),
        (marketdata.WithHTTPClient c cfg).baseURL = cfg.baseURL ∧
        (marketdata.WithBaseURL u cfg).httpClient = cfg.httpClient) ∧
      (∀ (l1 l2 : List OptionCall) (c : http.Client),
        (marketdata.NewClient apiKey apiSecret ((l1 ++ OptionCall.WithHTTPClient c :: l2).map
          OptionCall.marketdata)).MarketDataServiceClient.baseURL =
        (marketdata.NewClient apiKey apiSecret ((l1 ++ l2).map
          OptionCall.marketdata)).MarketDataServiceClient.baseURL) ∧
      (∀ (l1 l2 : List OptionCall) (u : GoString),
        (marketdata.NewClient apiKey apiSecret ((l1 ++ OptionCall.WithBaseURL u :: l2).map
          OptionCall.marketdata)).MarketDataServiceClient.opts =
        (marketdata.NewClient apiKey apiSecret ((l1 ++ l2).map
          OptionCall.marketdata)).MarketDataServiceClient.opts)) ∧
    ((∀ us : List GoString,
        (broker.NewClient apiKey apiSecret
          (us.map broker.WithBaseURL)).BrokerServiceClient.opts =
          [brokerv1.WithBrokerServiceHTTPClient http.DefaultClient,
           brokerv1.WithBrokerServiceAuthorization
             (str "Basic " ++ base64.EncodeToString (apiKey ++ str ":" ++ apiSecret))]) ∧
      (∀ (us1 us2 : List GoString) (c : http.Client),
        (broker.NewClient apiKey apiSecret
          (us1.map broker.WithBaseURL ++ broker.WithHTTPClient c ::
            us2.map broker.WithBaseURL)).BrokerServiceClient.opts =
          [brokerv1.WithBrokerServiceHTTPClient c,
           brokerv1.WithBrokerServiceAuthorization
             (str "Basic " ++ base64.EncodeToString (apiKey ++ str ":" ++ apiSecret))]) ∧
      (∀ (cfg : broker.options) (c : http.Client) (u : GoString),
        (broker.WithHTTPClient c cfg).baseURL = cfg.baseURL ∧
        (broker.WithBaseURL u cfg).httpClient = cfg.httpClient) ∧
      (∀ (l1 l2 : List OptionCall) (c : http.Client),
        (broker.NewClient apiKey apiSecret ((l1 ++ OptionCall.WithHTTPClient c :: l2).map
          OptionCall.broker)).BrokerServiceClient.baseURL =
        (broker.NewClient apiKey apiSecret ((l1 ++ l2).map
          OptionCall.broker)).BrokerServiceClient.baseURL) ∧
      (∀ (l1 l2 : List OptionCall) (u : GoString),
        (broker.NewClient apiKey apiSecret ((l1 ++ OptionCall.WithBaseURL u :: l2).map
          OptionCall.broker)).BrokerServiceClient.opts =
        (broker.NewClient apiKey apiSecret ((l1 ++ l2).map
          OptionCall.broker)).BrokerServiceClient.opts)) := by
  refine ⟨⟨fun us => ?_, fun us1 us2 c => ?_, fun _ _ _ => ⟨rfl, rfl⟩, fun l1 l2 c => ?_,
      fun l1 l2 u => ?_⟩,
    ⟨fun us => ?_, fun us1 us2 c => ?_, fun _ _ _ => ⟨rfl, rfl⟩, fun l1 l2 c => ?_,
      fun l1 l2 u => ?_⟩,
    ⟨fun us => ?_, fun us1 us2 c => ?_, fun _ _ _ => ⟨rfl, rfl⟩, fun l1 l2 c => ?_,
      fun l1 l2 u => ?_⟩⟩
  · simp [trading.NewClient, trading_foldl_WithBaseURL_httpClient,
      tradingv1.NewTradingServiceClient]
  · simp [trading.NewClient, trading_foldl_WithBaseURL_httpClient, trading.WithHTTPClient,
      tradingv1.NewTradingServiceClient, List.foldl_append]
  · simp only [trading.NewClient, trading_foldl_calls,
      OptionCall.lastBaseURL_insert_WithHTTPClient]
    rfl
  · simp only [trading.NewClient, trading_foldl_calls,
      OptionCall.lastHTTPClient_insert_WithBaseURL]
    rfl
  · simp [marketdata.NewClient, marketdata_foldl_WithBaseURL_httpClient,
      marketdatav2.NewMarketDataServiceClient]
  · simp [marketdata.NewClient, marketdata_foldl_WithBaseURL_httpClient,
      marketdata.WithHTTPClient, marketdatav2.NewMarketDataServiceClient, List.foldl_append]
  · simp only [marketdata.NewClient, marketdata_foldl_calls,
      OptionCall.lastBaseURL_insert_WithHTTPClient]
    rfl
  · simp only [marketdata.NewClient, marketdata_foldl_calls,
      OptionCall.lastHTTPClient_insert_WithBaseURL]
    rfl
  · simp [broker.NewClient, broker_foldl_WithBaseURL_httpClient,
      brokerv1.NewBrokerServiceClient]
  · simp [broker.NewClient, broker_foldl_WithBaseURL_httpClient, broker.WithHTTPClient,
      brokerv1.NewBrokerServiceClient, List.foldl_append]
  · simp only [broker.NewClient, broker_foldl_calls,
      OptionCall.lastBaseURL_insert_WithHTTPClient]
    rfl
  · simp only [broker.NewClient, broker_foldl_calls,
      OptionCall.lastHTTPClient_insert_WithBaseURL]
    rfl

/-! ## Option order -/

/-- Claim C10. For every option list of any length built from `WithHTTPClient`
and `WithBaseURL`, `NewClient` of each factory resolves the base URL to the
argument of the last `WithBaseURL` in the list, or the factory default when
there is none, and the transport to the argument of the last `WithHTTPClient`,
or `http.DefaultClient` when there is none. Consequently two lists that hold
the same `WithBaseURL` calls in the same order and the same `WithHTTPClient`
calls in the same order, however interleaved, build the same client. -/
theorem NewClient_last_setter_wins (apiKey apiSecret : GoString) :
    (∀ calls : List OptionCall,
      trading.NewClient apiKey apiSecret (calls.map OptionCall.trading) =
        { TradingServiceClient := tradingv1.NewTradingServiceClient
            ((OptionCall.lastBaseURL calls).getD (str "https://api.alpaca.markets"))
            [tradingv1.WithTradingServiceHTTPClient
               ((OptionCall.lastHTTPClient calls).getD http.DefaultClient),
             tradingv1.WithTradingServiceAPCAAPIKEYID apiKey,
             tradingv1.WithTradingServiceAPCAAPISECRETKEY apiSecret] } ∧
      marketdata.NewClient apiKey apiSecret (calls.map OptionCall.marketdata) =
        { MarketDataServiceClient := marketdatav2.NewMarketDataServiceClient
            ((OptionCall.lastBaseURL calls).getD (str "https://data.alpaca.markets"))
            [marketdatav2.WithMarketDataServiceHTTPClient
               ((OptionCall.lastHTTPClient calls).getD http.DefaultClient),
             marketdatav2.WithMarketDataServiceAPCAAPIKEYID apiKey,
             marketdatav2.WithMarketDataServiceAPCAAPISECRETKEY apiSecret] } ∧
      broker.NewClient apiKey apiSecret (calls.map OptionCall.broker) =
        { BrokerServiceClient := brokerv1.NewBrokerServiceClient
            ((OptionCall.lastBaseURL calls).getD (str "https://broker-api.alpaca.markets"))
            [brokerv1.WithBrokerServiceHTTPClient
               ((OptionCall.lastHTTPClient calls).getD http.DefaultClient),
             brokerv1.WithBrokerServiceAuthorization
               (str "Basic " ++ base64.EncodeToString (apiKey ++ str ":" ++ apiSecret))] }) ∧
    (∀ l1 l2 : List OptionCall,
      l1.filterMap OptionCall.baseURLArg = l2.filterMap OptionCall.baseURLArg →
      l1.filterMap OptionCall.httpClientArg = l2.filterMap OptionCall.httpClientArg →
      trading.NewClient apiKey apiSecret (l1.map OptionCall.trading) =
        trading.NewClient apiKey apiSecret (l2.map OptionCall.trading) ∧
      marketdata.NewClient apiKey apiSecret (l1.map OptionCall.marketdata) =
        marketdata.NewClient apiKey apiSecret (l2.map OptionCall.marketdata) ∧
      broker.NewClient apiKey apiSecret (l1.map OptionCall.broker) =
        broker.NewClient apiKey apiSecret (l2.map OptionCall.broker)) := by
  constructor
  · intro calls
    simp only [trading.NewClient, marketdata.NewClient, broker.NewClient, trading_foldl_calls,
      marketdata_foldl_calls, broker_foldl_calls]
    exact ⟨rfl, rfl, rfl⟩
  · intro l1 l2 hurl hhttp
    refine ⟨?_, ?_, ?_⟩ <;>
      simp only [trading.NewClient, marketdata.NewClient, broker.NewClient,
        trading_foldl_calls, marketdata_foldl_calls, broker_foldl_calls,
        OptionCall.lastBaseURL, OptionCall.lastHTTPClient, hurl, hhttp]

/-- Claim C10, at a concrete input: a transport option and two base URL
options, interleaved in two different ways, build the same clients. -/
theorem NewClient_last_setter_wins_witness :
    trading.NewClient (str "key") (str "secret")
        ([OptionCall.WithBaseURL (str "a"), OptionCall.WithHTTPClient http.Client.nil,
          OptionCall.WithBaseURL (str "b")].map OptionCall.trading) =
      trading.NewClient (str "key") (str "secret")
        ([OptionCall.WithHTTPClient http.Client.nil, OptionCall.WithBaseURL (str "a"),
          OptionCall.WithBaseURL (str "b")].map OptionCall.trading) ∧
    marketdata.NewClient (str "key") (str "secret")
        ([OptionCall.WithBaseURL (str "a"), OptionCall.WithHTTPClient http.Client.nil,
          OptionCall.WithBaseURL (str "b")].map OptionCall.marketdata) =
      marketdata.NewClient (str "key") (str "secret")
        ([OptionCall.WithHTTPClient http.Client.nil, OptionCall.WithBaseURL (str "a"),
          OptionCall.WithBaseURL (str "b")].map OptionCall.marketdata) ∧
    broker.NewClient (str "key") (str "secret")
        ([OptionCall.WithBaseURL (str "a"), OptionCall.WithHTTPClient http.Client.nil,
          OptionCall.WithBaseURL (str "b")].map OptionCall.broker) =
      broker.NewClient (str "key") (str "secret")
        ([OptionCall.WithHTTPClient http.Client.nil, OptionCall.WithBaseURL (str "a"),
          OptionCall.WithBaseURL (str "b")].map OptionCall.broker) :=
  (NewClient_last_setter_wins (str "key") (str "secret")).2
    [OptionCall.WithBaseURL (str "a"), OptionCall.WithHTTPClient http.Client.nil,
      OptionCall.WithBaseURL (str "b")]
    [OptionCall.WithHTTPClient http.Client.nil, OptionCall.WithBaseURL (str "a"),
      OptionCall.WithBaseURL (str "b")]
    (by decide) (by decide)

/-! ## The Authorization value and the credential pair -/

/-- Two lists that split at a separator which occurs in neither left part are
equal only if both parts are equal. -/
theorem append_separator_inj {α : Type} {x : α} :
    ∀ (k1 k2 s1 s2 : List α), x ∉ k1 → x ∉ k2 →
      k1 ++ x :: s1 = k2 ++ x :: s2 → k1 = k2 ∧ s1 = s2
  | [], [], _, _, _, _, h => ⟨rfl, List.tail_eq_of_cons_eq h⟩
  | [], b :: k2, _, _, _, h2, h => by
    have hb : x = b := List.head_eq_of_cons_eq h
    exact absurd (hb ▸ List.mem_cons_self x k2) h2
  | a :: k1, [], _, _, h1, _, h => by
    have ha : a = x := List.head_eq_of_cons_eq h
    exact absurd (ha ▸ List.mem_cons_self a k1) h1
  | a :: k1, b :: k2, s1, s2, h1, h2, h => by
    have hab : a = b := List.head_eq_of_cons_eq h
    have ht : k1 ++ x :: s1 = k2 ++ x :: s2 := List.tail_eq_of_cons_eq h
    have ih := append_separator_inj k1 k2 s1 s2
      (fun hm => h1 (List.mem_cons_of_mem a hm)) (fun hm => h2 (List.mem_cons_of_mem b hm)) ht
    exact ⟨by rw [hab, ih.1], ih.2⟩

/-- The Authorization value that `broker.NewClient` passes determines the bytes
of `apiKey + ":" + apiSecret`. -/
theorem broker_authorization_joined (k1 s1 k2 s2 : GoString) (opts1 opts2 : List broker.Option)
    (v : GoString)
    (h1 : brokerv1.WithBrokerServiceAuthorization v ∈
      (broker.NewClient k1 s1 opts1).BrokerServiceClient.opts)
    (h2 : brokerv1.WithBrokerServiceAuthorization v ∈
      (broker.NewClient k2 s2 opts2).BrokerServiceClient.opts) :
    k1 ++ 58 :: s1 = k2 ++ 58 :: s2 := by
  simp only [broker.NewClient, brokerv1.NewBrokerServiceClient, List.mem_cons,
    List.mem_singleton, reduceCtorEq, false_or,
    brokerv1.BrokerServiceClientOption.WithBrokerServiceAuthorization.injEq,
    List.not_mem_nil, or_false] at h1 h2
  have h := h1.symm.trans h2
  have he := base64.Encode_injective _ _ (List.append_cancel_left h)
  rw [str_colon] at he
  simpa using he

/-- Claim C11. The broker Authorization value identifies the credential pair
only when the key holds no colon (byte 58). For all pairs `(k1, s1)` and
`(k2, s2)` whose keys hold no colon, and any option lists, if `broker.NewClient`
passes the same Authorization value for both then `k1 = k2` and `s1 = s2`.
Without the precondition distinct pairs collide: `("a:b", "c")` and
`("a", "b:c")` are different pairs and pass the same Authorization value. -/
theorem broker_authorization_identifies_pair :
    (∀ (k1 s1 k2 s2 : GoString) (opts1 opts2 : List broker.Option) (v : GoString),
      (58 : UInt8) ∉ k1 → (58 : UInt8) ∉ k2 →
      brokerv1.WithBrokerServiceAuthorization v ∈
        (broker.NewClient k1 s1 opts1).BrokerServiceClient.opts →
      brokerv1.WithBrokerServiceAuthorization v ∈
        (broker.NewClient k2 s2 opts2).BrokerServiceClient.opts →
      k1 = k2 ∧ s1 = s2) ∧
    ((str "a:b", str "c") ≠ (str "a", str "b:c") ∧
      ∃ v : GoString,
        brokerv1.WithBrokerServiceAuthorization v ∈
          (broker.NewClient (str "a:b") (str "c") []).BrokerServiceClient.opts ∧
        brokerv1.WithBrokerServiceAuthorization v ∈
          (broker.NewClient (str "a") (str "b:c") []).BrokerServiceClient.opts) := by
  refine ⟨fun k1 s1 k2 s2 opts1 opts2 v hk1 hk2 h1 h2 => ?_, by decide, ?_⟩
  · exact append_separator_inj k1 k2 s1 s2 hk1 hk2
      (broker_authorization_joined k1 s1 k2 s2 opts1 opts2 v h1 h2)
  · exact ⟨str "Basic YTpiOmM=", by decide, by decide⟩

/-- Claim C11, at a concrete input: the keys `key` and `key` hold no colon and
both calls pass `Basic a2V5OnNlY3JldA==`, so the pairs are equal. -/
theorem broker_authorization_identifies_pair_witness :
    (58 : UInt8) ∉ str "key" ∧
    brokerv1.WithBrokerServiceAuthorization (str "Basic a2V5OnNlY3JldA==") ∈
      (broker.NewClient (str "key") (str "secret") []).BrokerServiceClient.opts ∧
    brokerv1.WithBrokerServiceAuthorization (str "Basic a2V5OnNlY3JldA==") ∈
      (broker.NewClient (str "key") (str "secret")
        [broker.WithBaseURL (str "http://localhost")]).BrokerServiceClient.opts ∧
    (str "key" = str "key" ∧ str "secret" = str "secret") :=
  ⟨by decide, by decide, by decide,
    broker_authorization_identifies_pair.1 (str "key") (str "secret") (str "key") (str "secret")
      [] [broker.WithBaseURL (str "http://localhost")] (str "Basic a2V5OnNlY3JldA==")
      (by decide) (by decide) (by decide) (by decide)⟩
